import Mathlib

/-!
Verification of the serial-device core of LTPowerAnalyzerPython.

Shallow embedding of `src/Drivers/SerialDeviceDriver.py`,
`src/Drivers/RL2000Driver.py` and `src/Drivers/LNAmplifierDriver.py`:
the line-oriented transport, the error model, device discovery,
the paged EEPROM dataset transfer and the fan-out dispatcher.

Modelling conventions:
* Machine floats carry no arithmetic in the modelled code (values are only
  copied, compared and re-encoded), so float samples are embedded as `ℚ`.
* A serial channel is a record holding the lines the device will produce
  (`incoming`) and the trace of lines the driver wrote (`sent`); pyserial's
  `readline` returns the next line, or the empty string on timeout.
* Python exceptions that the source catches are modelled by the caught
  branch's result; `port_ok`, which the source may let raise `IndexError`,
  returns `Except`.
-/

namespace LTPA

/-- Big-endian decimal digit accumulation, used by the `int(...)` model. -/
def digitsToNat (l : List Char) : Nat :=
  l.foldl (fun n c => n * 10 + (c.toNat - 48)) 0

/-- Model of Python `int(s)` on a stripped line: an optional sign followed by
decimal digits; anything else raises `ValueError`, modelled as `none`. -/
def pyInt? (s : String) : Option Int :=
  match s.toList with
  | [] => none
  | '-' :: rest =>
      if rest ≠ [] ∧ rest.all (·.isDigit) then some (-(digitsToNat rest : Int)) else none
  | '+' :: rest =>
      if rest ≠ [] ∧ rest.all (·.isDigit) then some ((digitsToNat rest : Int)) else none
  | l =>
      if l.all (·.isDigit) then some ((digitsToNat l : Int)) else none

/-- Magnitude part of the `float(s)` model: `digits`, `digits.`, `.digits`
or `digits.digits`. -/
def pyFloatMag (l : List Char) : Option ℚ :=
  let ip := l.takeWhile (· ≠ '.')
  let rest := l.dropWhile (· ≠ '.')
  match rest with
  | [] => if ip ≠ [] ∧ ip.all (·.isDigit) then some ((digitsToNat ip : ℚ)) else none
  | _ :: frac =>
      if ip.all (·.isDigit) ∧ frac.all (·.isDigit) ∧ (ip ≠ [] ∨ frac ≠ []) then
        some ((digitsToNat ip : ℚ) + (digitsToNat frac : ℚ) / (10 ^ frac.length))
      else none

/-- Model of Python `float(...)` on a list of characters. -/
def pyFloatChars (l : List Char) : Option ℚ :=
  match l with
  | [] => none
  | '-' :: rest => (pyFloatMag rest).map (fun q => -q)
  | '+' :: rest => pyFloatMag rest
  | l => pyFloatMag l

/-- Model of Python `float(s)` on a stripped line (`none` = `ValueError`). -/
def pyFloat? (s : String) : Option ℚ :=
  pyFloatChars s.toList

/-- Model of Python `s.split(',')` on the character list of a line. -/
def splitCommaChars : List Char → List (List Char)
  | [] => [[]]
  | ',' :: rest => [] :: splitCommaChars rest
  | c :: rest =>
      match splitCommaChars rest with
      | [] => [[c]]
      | g :: gs => (c :: g) :: gs

/-- Model of Python `s.strip()`: drop whitespace from both ends. -/
def pyStrip (l : List Char) : List Char :=
  ((l.dropWhile (·.isWhitespace)).reverse.dropWhile (·.isWhitespace)).reverse

/-- Model of Python `str(float(v))`: integral values render as `"<n>.0"`;
non-integral rationals keep their canonical rendering (the claims constrain
only which value is encoded, never the decimal notation itself). -/
def pyFloatStr (q : ℚ) : String :=
  if q.den = 1 then toString q.num ++ ".0" else toString q

/-- One serial channel: `src/Drivers/SerialDeviceDriver.py`.
`incoming` is the queue of lines the device will answer with, `sent` the
trace of lines written by `writeln`. -/
structure PortSt where
  is_open : Bool
  incoming : List String
  sent : List String
  deriving Repr, DecidableEq

/-- Driver state shared across one `SerialDevice` instance:
`ports` is `serial_ports` (the handle registry), `portIndex` is
`_port_index`, `err` is `_error` and `errIdx` is `_error_device_index`. -/
structure SerSt where
  ports : List PortSt
  portIndex : Nat
  err : Option Int
  errIdx : Nat
  deriving Repr, DecidableEq

/-- `ser.readline().decode('utf-8').strip()`: pop the next line,
empty string after a timeout on an exhausted queue. -/
def popLine (p : PortSt) : String × PortSt :=
  match p.incoming with
  | [] => ("", p)
  | l :: rest => (l, { p with incoming := rest })

/-- `writeln(ser, command)`: append the newline-terminated command and flush.
The trace records the command text. -/
def writelnP (p : PortSt) (command : String) : PortSt :=
  { p with sent := p.sent ++ [command] }

def setPort (st : SerSt) (i : Nat) (p : PortSt) : SerSt :=
  { st with ports := st.ports.set i p }

/-- `readln(self, ser, read_error)`: read one line; when `read_error` is set,
read a second line and try `int(...)` on it, storing the parsed code in
`_error` and the currently selected `_port_index` in `_error_device_index`;
an unparseable error line clears `_error` to `None` (the `ValueError` is
caught).  The `ser` argument is identified by its registry index `i`. -/
def readln (st : SerSt) (i : Nat) (read_error : Bool) : String × SerSt :=
  match st.ports.get? i with
  | none => ("", st)
  | some p =>
    let (response, p1) := popLine p
    if read_error then
      let (errLine, p2) := popLine p1
      let st1 := setPort st i p2
      match pyInt? errLine with
      | some n => (response, { st1 with err := some n, errIdx := st1.portIndex })
      | none => (response, { st1 with err := none })
    else (response, setPort st i p1)

/-- `read_value(self, read_error, port_index)`: `readln` on
`serial_ports[port_index]`, with the `IndexError` of an out-of-range index
caught and converted to `None`. -/
def read_value (st : SerSt) (read_error : Bool) (port_index : Nat) : Option String × SerSt :=
  if port_index < st.ports.length then
    let (r, st') := readln st port_index read_error
    (some r, st')
  else (none, st)

/-- `send_command(self, command, port_index)`: `writeln` on
`serial_ports[port_index]`; exceptions (including `IndexError`) yield
`False`. -/
def send_command (st : SerSt) (command : String) (port_index : Nat) : Bool × SerSt :=
  match st.ports.get? port_index with
  | some p => (true, setPort st port_index (writelnP p command))
  | none => (false, st)

/-- `send_value(self, value, port_index)`: stringify and delegate to
`send_command`; call sites pass the already-rendered text. -/
def send_value (st : SerSt) (value : String) (port_index : Nat) : Bool × SerSt :=
  send_command st value port_index

/-- `port_ok(self, port_index=None)`: an empty registry returns `False`;
otherwise the indexed entry is consulted, and an out-of-range index lets the
`IndexError` of `serial_ports[index]` escape. -/
def port_ok (st : SerSt) (idx : Option Nat) : Except String Bool :=
  let index := idx.getD st.portIndex
  if st.ports.length = 0 then .ok false
  else
    match st.ports.get? index with
    | some p => .ok p.is_open
    | none => .error "IndexError"

/-- `port_ok` as used inside callers whose surrounding `try` converts the
raising case into the same failure result as the `False` case. -/
def port_okB (st : SerSt) (i : Nat) : Bool :=
  match port_ok st (some i) with
  | .ok b => b
  | .error _ => false

/-! ### Error model: `SerialDeviceErrors` -/

/-- The base `error_descriptions` table of `SerialDeviceErrors`. -/
def error_descriptions (bit : Nat) : Option String :=
  match bit with
  | 0 => some "No Error"
  | 1 => some "Command Not Found"
  | 2 => some "Measurement Timeout"
  | 3 => some "Invalid Value"
  | 4 => some "Parse Error"
  | 5 => some "Communication Timeout"
  | _ => none

/-- `get_error_description(bit)`: registered text or `"Unknown Error"`. -/
def get_error_description (bit : Nat) : String :=
  (error_descriptions bit).getD "Unknown Error"

/-- `get_error_summary()`: join the descriptions of every set bit of the
32-bit flag register with `" | "`. -/
def get_error_summary (flags : Nat) : String :=
  String.intercalate " | "
    (((List.range 32).filter (fun i => flags.testBit i)).map get_error_description)

/-- `int("0x" + str(n), 16)`: the decimal rendering of the stored error code
reinterpreted as hexadecimal, exactly as the `error_description` property
computes it. -/
def hexReinterpret (n : Nat) : Nat :=
  (toString n).toList.foldl (fun acc c => acc * 16 + (c.toNat - 48)) 0

/-- The `error_description` property of `SerialDevice`: clear the flag
register, load `int("0x" + str(error), 16)` into it, and summarize. -/
def error_description (n : Nat) : String :=
  get_error_summary (hexReinterpret n)

/-! ### C3: the RL2000 fan-out dispatcher -/

/-- `_cmdReadCurrentMeterAndLoad` of `src/Drivers/RL2000Driver.py`. -/
def cmdReadCurrentMeterAndLoad : String := "71"

/-- `read_currents(self, port_index)`: guard on `port_ok`, send the read
command, then `float(...)` two read values; any failure (closed port,
unparseable text, raised exception) is caught and yields `None`. -/
def read_currents (st : SerSt) (port_index : Nat) : Option (ℚ × ℚ) × SerSt :=
  if port_okB st port_index then
    let s1 := (send_command st cmdReadCurrentMeterAndLoad port_index).2
    let r1 := read_value s1 false port_index
    match r1.1.bind pyFloat? with
    | none => (none, r1.2)
    | some c1 =>
      let r2 := read_value r1.2 true port_index
      match r2.1.bind pyFloat? with
      | none => (none, r2.2)
      | some c2 => (some (c1, c2), r2.2)
  else (none, st)

/-- `read_all_currents(self)`: `asyncio.gather` over one
`read_currents(port_index)` task per registered handle.  The gather is
modelled as the order-preserving join of the per-handle results: each task
exchanges lines only on its own channel, and the tasks cannot raise (every
exception is caught inside `read_currents`), so the gathered vector holds
each handle's own sequential result in task order. -/
def read_all_currents (st : SerSt) : List (Option (ℚ × ℚ)) :=
  (List.range st.ports.length).map (fun i => (read_currents st i).1)

/-- The value `read_currents` produces, as a function of the target channel
alone (proved equal to the stateful run in `read_currents_proj`). -/
def read_currents_pure (p : PortSt) : Option (ℚ × ℚ) :=
  if p.is_open then
    match pyFloat? (p.incoming.head?.getD "") with
    | none => none
    | some c1 =>
      match pyFloat? (p.incoming[1]?.getD "") with
      | none => none
      | some c2 => some (c1, c2)
  else none

/-- The failure condition of one handle's `read_currents`: closed channel,
or either value line not parseable as a float. -/
def read_currents_fails (p : PortSt) : Bool :=
  !p.is_open || (pyFloat? (p.incoming.head?.getD "")).isNone
    || (pyFloat? (p.incoming[1]?.getD "")).isNone

/-! ### LNAmplifier paged EEPROM dataset transfer -/

/-- `_cmdGetPointCount` of `src/Drivers/LNAmplifierDriver.py`. -/
def cmdGetPointCount : String := "13"

/-- `_cmdSetEEPROMBaseAddress`. -/
def cmdSetEEPROMBaseAddress : String := "16"

/-- `_cmdSetEEPROMFloatPage`. -/
def cmdSetEEPROMFloatPage : String := "18"

/-- `_cmdGetEEPROMFloatPage`. -/
def cmdGetEEPROMFloatPage : String := "19"

/-- `_cmdGetEEPROMDataPageCount`. -/
def cmdGetEEPROMDataPageCount : String := "20"

/-- `','.join(str(float(val)) for val in float_values)`: the page payload as
one comma-joined line. -/
def encodePage (float_values : List ℚ) : String :=
  String.intercalate "," (float_values.map pyFloatStr)

/-- The page-reply parser of `get_eeprom_float_page`: split on `","`,
`float(...)` every stripped field (`ValueError` on any field is `none`),
then require exactly 8 values. -/
def parse_float_page (s : String) : Option (List ℚ) :=
  match (splitCommaChars s.toList).mapM (fun v => pyFloatChars (pyStrip v)) with
  | none => none
  | some fv => if fv.length = 8 then some fv else none

/-- `get_point_count(self, port_index)`: send the command and return the
error-bearing read's response. -/
def get_point_count (st : SerSt) (port_index : Nat) : Option String × SerSt :=
  if port_okB st port_index then
    let s1 := (send_command st cmdGetPointCount port_index).2
    read_value s1 true port_index
  else (none, st)

/-- `get_eeprom_data_page_count(self, port_index)`. -/
def get_eeprom_data_page_count (st : SerSt) (port_index : Nat) : Option String × SerSt :=
  if port_okB st port_index then
    let s1 := (send_command st cmdGetEEPROMDataPageCount port_index).2
    read_value s1 true port_index
  else (none, st)

/-- `set_eeprom_base_address(self, data_index, port_index)`: command line,
data-index line, paired error read; returns `True` on the open-port path. -/
def set_eeprom_base_address (st : SerSt) (data_index : Nat) (port_index : Nat) : Bool × SerSt :=
  if port_okB st port_index then
    let s1 := (send_command st cmdSetEEPROMBaseAddress port_index).2
    let s2 := (send_value s1 (toString data_index) port_index).2
    let s3 := (read_value s2 true port_index).2
    (true, s3)
  else (false, st)

/-- `set_eeprom_float_page(self, float_values, port_index)`: reject anything
but an 8-element page, send the command line and the comma-joined payload as
one value line, perform the paired error read, and return `True` on the
open-port path (whatever error code the device reported). -/
def set_eeprom_float_page (st : SerSt) (float_values : List ℚ) (port_index : Nat) :
    Bool × SerSt :=
  if float_values.length ≠ 8 then (false, st)
  else if port_okB st port_index then
    let s1 := (send_command st cmdSetEEPROMFloatPage port_index).2
    let s2 := (send_value s1 (encodePage float_values) port_index).2
    let s3 := (read_value s2 true port_index).2
    (true, s3)
  else (false, st)

/-- `get_eeprom_float_page(self, port_index)`: command line, error-bearing
read, then parse the comma-delimited reply into exactly 8 floats. -/
def get_eeprom_float_page (st : SerSt) (port_index : Nat) : Option (List ℚ) × SerSt :=
  if port_okB st port_index then
    let s1 := (send_command st cmdGetEEPROMFloatPage port_index).2
    let r := read_value s1 true port_index
    match r.1 with
    | none => (none, r.2)
    | some resp => (parse_float_page resp, r.2)
  else (none, st)

/-- The `page_values` list built for page `page_num` of the dataset write:
exactly 8 samples, zero-padded past the end of `float_values`. -/
def page_values_for (float_values : List ℚ) (page_num : Nat) : List ℚ :=
  (List.range 8).map (fun j => (float_values.get? (page_num * 8 + j)).getD 0)

/-- The page-write loop of `set_eeprom_dataset`: write `k` pages starting at
`page_num`, returning the count of successful pages and the final state. -/
def write_pages (float_values : List ℚ) (port_index : Nat) :
    SerSt → Nat → Nat → Nat × SerSt
  | st, _, 0 => (0, st)
  | st, page_num, k+1 =>
      let r := set_eeprom_float_page st (page_values_for float_values page_num) port_index
      let w := write_pages float_values port_index r.2 (page_num+1) k
      (if r.1 then w.1 + 1 else w.1, w.2)

/-- `set_eeprom_dataset(self, float_values, data_index, port_index)`:
validate, read the point count, set the base address, read the page count,
then write that many pages; success iff every page write reported `True`. -/
def set_eeprom_dataset (st : SerSt) (float_values : List ℚ) (data_index : Nat)
    (port_index : Nat) : Bool × SerSt :=
  if !(port_okB st port_index) then (false, st)
  else if float_values.length = 0 then (false, st)
  else if data_index > 8 then (false, st)
  else
    let r1 := get_point_count st port_index
    match r1.1 with
    | none => (false, r1.2)
    | some pcs =>
      match pyInt? pcs with
      | none => (false, r1.2)
      | some _ =>
        let r2 := set_eeprom_base_address r1.2 data_index port_index
        if !r2.1 then (false, r2.2)
        else
          let r3 := get_eeprom_data_page_count r2.2 port_index
          match r3.1 with
          | none => (false, r3.2)
          | some pgs =>
            match pyInt? pgs with
            | none => (false, r3.2)
            | some page_count =>
              let w := write_pages float_values port_index r3.2 0 page_count.toNat
              (((w.1 : Int) == page_count), w.2)

/-- The page-read loop of `get_eeprom_dataset`: read `k` pages starting at
`page_num`, appending each page's entries whose dataset index is below the
point count; any failed page aborts with `none`. -/
def read_pages (port_index : Nat) (point_count : Int) :
    SerSt → Nat → List ℚ → Nat → Option (List ℚ) × SerSt
  | st, _, acc, 0 => (some acc, st)
  | st, page_num, acc, k+1 =>
      let r := get_eeprom_float_page st port_index
      match r.1 with
      | none => (none, r.2)
      | some pg =>
          let vals := (List.range 8).filterMap (fun j =>
            if ((page_num * 8 + j : Nat) : Int) < point_count then some (pg.getD j 0) else none)
          read_pages port_index point_count r.2 (page_num+1) (acc ++ vals) k

/-- `get_eeprom_dataset(self, data_index, port_index)`: validate, read the
point count, set the base address, read the page count, read that many
pages, and return the reassembled dataset iff its length equals the point
count. -/
def get_eeprom_dataset (st : SerSt) (data_index : Nat) (port_index : Nat) :
    Option (List ℚ) × SerSt :=
  if !(port_okB st port_index) then (none, st)
  else if data_index > 8 then (none, st)
  else
    let r1 := get_point_count st port_index
    match r1.1 with
    | none => (none, r1.2)
    | some pcs =>
      match pyInt? pcs with
      | none => (none, r1.2)
      | some point_count =>
        let r2 := set_eeprom_base_address r1.2 data_index port_index
        if !r2.1 then (none, r2.2)
        else
          let r3 := get_eeprom_data_page_count r2.2 port_index
          match r3.1 with
          | none => (none, r3.2)
          | some pgs =>
            match pyInt? pgs with
            | none => (none, r3.2)
            | some page_count =>
              let rr := read_pages port_index point_count r3.2 0 [] page_count.toNat
              match rr.1 with
              | none => (none, rr.2)
              | some dataset =>
                  if ((dataset.length : Int) == point_count) then (some dataset, rr.2)
                  else (none, rr.2)

/-- The line trace written so far on channel `i`. -/
def sentOf (st : SerSt) (i : Nat) : List String :=
  ((st.ports.get? i).map PortSt.sent).getD []

/-- A fresh one-handle driver state whose device will answer with
`incoming`. -/
def mk1 (incoming : List String) : SerSt :=
  ⟨[⟨true, incoming, []⟩], 0, none, 0⟩

/-- The lines the page-write loop sends for `k` pages starting at
`page_num`: per page, the page command and one comma-joined payload line. -/
def pageLines (float_values : List ℚ) : Nat → Nat → List String
  | _, 0 => []
  | page_num, k+1 =>
      [cmdSetEEPROMFloatPage, encodePage (page_values_for float_values page_num)]
        ++ pageLines float_values (page_num+1) k

/-- Parse `k` successive page replies (each consuming a reply line and an
error line) out of an incoming stream. -/
def pages_parse : List String → Nat → Option (List (List ℚ))
  | _, 0 => some []
  | pin, k+1 =>
      match parse_float_page (pin.head?.getD "") with
      | none => none
      | some pg =>
          match pages_parse (pin.drop 2) k with
          | none => none
          | some rest => some (pg :: rest)

/-! ### Discovery: `check_connections` -/

/-- One candidate endpoint of the OS enumeration, with the outcome of its
probe abstracted: whether `serial.Serial(...)` and the identification round
trip succeed without exception, and the two reply lines. -/
structure Candidate where
  name : String
  openOk : Bool
  response : String
  errLine : String
  deriving Repr, DecidableEq

/-- One registered handle: the `pyserial` object's `portstr` and open flag. -/
structure Handle where
  portstr : String
  is_open : Bool
  deriving Repr, DecidableEq

/-- Discovery state: the `serial_ports` registry, the `_checked_ports` set
(as a duplicate-free list) and the trace of channels explicitly closed
during the pass (`check_connections` never calls `close`, so the pass
appends nothing to it). -/
structure DiscSt where
  serial_ports : List Handle
  checked : List String
  closes : List String
  deriving Repr, DecidableEq

/-- `self._checked_ports.add(name)` with set semantics. -/
def addChecked (l : List String) (x : String) : List String :=
  if x ∈ l then l else l ++ [x]

/-- The body of the `check_connections` loop for one candidate, threading
the discovery state and the trace of endpoints actually probed: skip
already-checked endpoints; treat open/probe exceptions as non-matches that
are not marked checked; keep the channel as a new handle when the reply
equals `_model_name` and the endpoint is not yet registered; mark the
candidate checked either way.  The non-qualifying channel is not closed. -/
def probe_step (model_name : String) (acc : DiscSt × List String) (c : Candidate) :
    DiscSt × List String :=
  let st := acc.1
  let probes := acc.2
  if c.name ∈ st.checked then (st, probes)
  else if !c.openOk then (st, probes)
  else
    let keep := c.response == model_name
    let ports :=
      if keep && !(st.serial_ports.any (fun h => h.portstr == c.name))
      then st.serial_ports ++ [⟨c.name, true⟩]
      else st.serial_ports
    (⟨ports, addChecked st.checked c.name, st.closes⟩, probes ++ [c.name])

/-- `check_connections(self)`: retain only the still-enumerated endpoints in
the checked set, fold the probe over the OS enumeration, and report whether
the registry is non-empty.  The second component is the trace of endpoints
probed in this pass. -/
def check_connections (model_name : String) (st : DiscSt) (cands : List Candidate) :
    (DiscSt × List String) × Bool :=
  let names := cands.map Candidate.name
  let checked0 := st.checked.filter (fun p => p ∈ names)
  let r := cands.foldl (probe_step model_name) (⟨st.serial_ports, checked0, st.closes⟩, [])
  (r, !r.1.serial_ports.isEmpty)

/-! ### List helper lemmas -/

theorem lgetSetSelf {α : Type} (l : List α) (i : Nat) (a : α) (h : i < l.length) :
    (l.set i a).get? i = some a := by
  induction l generalizing i with
  | nil => simp at h
  | cons x xs ih =>
      cases i with
      | zero => rfl
      | succ j => simpa using ih j (by simpa using h)

theorem lgetSetNe {α : Type} (l : List α) (i j : Nat) (a : α) (h : i ≠ j) :
    (l.set i a).get? j = l.get? j := by
  induction l generalizing i j with
  | nil => rfl
  | cons x xs ih =>
      cases i with
      | zero => cases j with
        | zero => exact absurd rfl h
        | succ k => rfl
      | succ i' => cases j with
        | zero => rfl
        | succ k => simpa using ih i' k (by omega)

/-! ### C10: `port_ok` indexing behaviour -/

/-- C10: with at least one registered handle, `port_ok` on an index at or
past the registry length raises `IndexError` rather than returning `False`;
it returns `False` without raising exactly when the registry is empty or the
indexed handle exists and is closed. -/
theorem port_ok_index_behavior (st : SerSt) (i : Nat) :
    (1 ≤ st.ports.length → st.ports.length ≤ i →
        port_ok st (some i) = .error "IndexError")
  ∧ (port_ok st (some i) = .ok false ↔
      (st.ports.length = 0 ∨ ∃ p, st.ports.get? i = some p ∧ p.is_open = false)) := by
  constructor
  · intro h1 h2
    have hg : st.ports.get? i = none := List.get?_eq_none.mpr h2
    unfold port_ok
    simp only [Option.getD_some]
    rw [if_neg (by omega), hg]
  · unfold port_ok
    simp only [Option.getD_some]
    by_cases h : st.ports.length = 0
    · simp [h]
    · rw [if_neg h]
      cases hg : st.ports.get? i with
      | none => simp [h, hg]
      | some p =>
          constructor
          · intro hok
            have h3 : (Except.ok p.is_open : Except String Bool) = .ok false := hok
            exact Or.inr ⟨p, rfl, Except.ok.inj h3⟩
          · intro hor
            rcases hor with h0 | ⟨q, hq, hcl⟩
            · exact absurd h0 h
            · cases hq
              exact congrArg Except.ok hcl

theorem port_ok_index_behavior_witness :
    port_ok ⟨[⟨false, [], []⟩], 0, none, 0⟩ (some 3) = .error "IndexError" :=
  (port_ok_index_behavior ⟨[⟨false, [], []⟩], 0, none, 0⟩ 3).1 (by decide) (by decide)

/-! ### C7: the error field after a write / error-bearing read -/

theorem send_command_get?_self (st : SerSt) (command : String) (i : Nat) (p : PortSt)
    (hp : st.ports.get? i = some p) :
    (send_command st command i).2.ports.get? i = some (writelnP p command) := by
  obtain ⟨hlt, -⟩ := List.get?_eq_some.mp hp
  simp only [send_command, hp, setPort]
  exact lgetSetSelf _ _ _ hlt

/-- C7: after a write and a read with the error flag requested, the stored
error field equals the parsed integer when the error line parses, and is
cleared to the `None` sentinel when it does not; the handler is total, so an
unparseable error line never propagates the `ValueError`. -/
theorem readln_error_field_consistent (st : SerSt) (command : String) (i : Nat) (p : PortSt)
    (r e : String) (rest : List String)
    (hp : st.ports.get? i = some p) (hin : p.incoming = r :: e :: rest) :
    ((readln (send_command st command i).2 i true).1 = r)
  ∧ ((readln (send_command st command i).2 i true).2.err = pyInt? e) := by
  have h1 := send_command_get?_self st command i p hp
  have hw : (writelnP p command).incoming = r :: e :: rest := hin
  unfold readln
  rw [h1]
  simp only [popLine, hw]
  cases he : pyInt? e with
  | none => exact ⟨rfl, rfl⟩
  | some n => exact ⟨rfl, rfl⟩

theorem readln_error_field_consistent_witness :
    (((readln (send_command ⟨[⟨true, ["7", "xyz"], []⟩], 0, none, 0⟩ "13" 0).2 0 true).1 = "7")
  ∧ ((readln (send_command ⟨[⟨true, ["7", "xyz"], []⟩], 0, none, 0⟩ "13" 0).2 0 true).2.err
        = pyInt? "xyz"))
  ∧ pyInt? "xyz" = none :=
  ⟨readln_error_field_consistent ⟨[⟨true, ["7", "xyz"], []⟩], 0, none, 0⟩ "13" 0
      ⟨true, ["7", "xyz"], []⟩ "7" "xyz" [] (by decide) (by decide),
    by decide⟩

/-! ### C2: attribution of the stored error to its handle -/

/-- C2 (failing input): with handle 0 selected, an error-bearing read on
handle 1 whose error line is `"3"` stores the code `3` but records handle 0,
not handle 1, as the error's origin: `readln` stores `self._port_index`, the
currently selected index, not the index of the handle it actually read. -/
theorem read_value_error_index_misattributed :
    ((read_value ⟨[⟨true, ["a", "1"], []⟩, ⟨true, ["resp", "3"], []⟩], 0, none, 0⟩ true 1).2.err
        = some 3)
  ∧ ((read_value ⟨[⟨true, ["a", "1"], []⟩, ⟨true, ["resp", "3"], []⟩], 0, none, 0⟩ true 1).2.errIdx
        = 0)
  ∧ (0 : Nat) ≠ 1 := by
  refine ⟨by decide, by decide, by decide⟩

theorem read_value_false_spec (st : SerSt) (i : Nat) (p : PortSt)
    (hp : st.ports.get? i = some p) :
    read_value st false i
      = (some (p.incoming.headD ""),
          setPort st i { p with incoming := p.incoming.tail }) := by
  obtain ⟨hlt, -⟩ := List.get?_eq_some.mp hp
  rcases p with ⟨po, pin, ps⟩
  unfold read_value readln popLine
  rw [if_pos hlt, hp]
  cases pin <;> rfl

theorem read_value_true_spec (st : SerSt) (i : Nat) (p : PortSt)
    (hp : st.ports.get? i = some p) :
    read_value st true i
      = (some (p.incoming.headD ""),
          ⟨st.ports.set i ⟨p.is_open, p.incoming.drop 2, p.sent⟩, st.portIndex,
            pyInt? (p.incoming.tail.headD ""),
            match pyInt? (p.incoming.tail.headD "") with
            | some _ => st.portIndex
            | none => st.errIdx⟩) := by
  obtain ⟨hlt, -⟩ := List.get?_eq_some.mp hp
  rcases st with ⟨ports, pidx, er, ei⟩
  rcases p with ⟨po, pin, ps⟩
  unfold read_value readln popLine setPort
  rw [if_pos hlt, hp]
  match pin with
  | [] => rfl
  | [a] => rfl
  | a :: b :: t => cases h2 : pyInt? b <;> simp [h2]

theorem read_currents_proj (st : SerSt) (i : Nat) (p : PortSt)
    (hp : st.ports.get? i = some p) :
    (read_currents st i).1 = read_currents_pure p := by
  obtain ⟨hlt, -⟩ := List.get?_eq_some.mp hp
  have hne : st.ports.length ≠ 0 := by omega
  have hok : port_okB st i = p.is_open := by
    unfold port_okB port_ok
    simp only [Option.getD_some]
    rw [if_neg hne, hp]
  by_cases ho : p.is_open
  case neg =>
    unfold read_currents read_currents_pure
    rw [hok, if_neg (by simpa using ho), if_neg (by simpa using ho)]
  case pos =>
    have hs1 : (send_command st cmdReadCurrentMeterAndLoad i).2
        = setPort st i (writelnP p cmdReadCurrentMeterAndLoad) := by
      unfold send_command
      rw [hp]
    have hq1 : (setPort st i (writelnP p cmdReadCurrentMeterAndLoad)).ports.get? i
        = some (writelnP p cmdReadCurrentMeterAndLoad) := lgetSetSelf _ _ _ hlt
    have hlt2 : i < (st.ports.set i (writelnP p cmdReadCurrentMeterAndLoad)).length := by
      simpa using hlt
    have hq2 : (setPort (setPort st i (writelnP p cmdReadCurrentMeterAndLoad)) i
          { writelnP p cmdReadCurrentMeterAndLoad with
              incoming := (writelnP p cmdReadCurrentMeterAndLoad).incoming.tail }).ports.get? i
        = some { writelnP p cmdReadCurrentMeterAndLoad with
              incoming := (writelnP p cmdReadCurrentMeterAndLoad).incoming.tail } :=
      lgetSetSelf _ _ _ hlt2
    unfold read_currents read_currents_pure
    rw [hok, if_pos ho, if_pos ho]
    simp only [hs1, read_value_false_spec _ i _ hq1]
    simp only [read_value_true_spec _ i _ hq2]
    simp only [writelnP]
    simp only [List.headD_eq_head?_getD, List.head?_tail]
    cases hc1 : pyFloat? (p.incoming.head?.getD "") with
    | none => simp [Option.bind, hc1]
    | some c1 =>
        cases hc2 : pyFloat? (p.incoming[1]?.getD "") with
        | none => simp [Option.bind, hc1, hc2]
        | some c2 => simp [Option.bind, hc1, hc2]

theorem read_currents_pure_none_iff (p : PortSt) :
    read_currents_pure p = none ↔ read_currents_fails p = true := by
  unfold read_currents_pure read_currents_fails
  by_cases ho : p.is_open
  · rw [if_pos ho]
    cases hc1 : pyFloat? (p.incoming.head?.getD "") with
    | none => simp [ho, hc1]
    | some c1 =>
        cases hc2 : pyFloat? (p.incoming[1]?.getD "") with
        | none => simp [ho, hc1, hc2]
        | some c2 => simp [ho, hc1, hc2]
  · simp at ho
    simp [ho]

/-- C3: the fan-out over the K registered handles returns a K-length vector
in registry order whose slot `i` is the failure marker `None` exactly when
handle `i`'s own operation failed; the dispatch is a total function (no
exception escapes), and a slot depends only on its own handle's channel, so
no other handle's failure can remove or alter it. -/
theorem read_all_currents_slots (st : SerSt) :
    (read_all_currents st).length = st.ports.length
  ∧ (∀ i : Nat, ∀ p : PortSt, st.ports.get? i = some p →
      ((read_all_currents st).get? i = some none ↔ read_currents_fails p = true))
  ∧ (∀ st' : SerSt, ∀ i : Nat, st'.ports.length = st.ports.length →
      st'.ports.get? i = st.ports.get? i →
      (read_all_currents st').get? i = (read_all_currents st).get? i) := by
  refine ⟨by simp [read_all_currents], ?_, ?_⟩
  · intro i p hp
    obtain ⟨hlt, -⟩ := List.get?_eq_some.mp hp
    have hslot : (read_all_currents st).get? i = some ((read_currents st i).1) := by
      unfold read_all_currents
      rw [List.get?_map, List.get?_range hlt]
      rfl
    rw [hslot, read_currents_proj st i p hp]
    constructor
    · intro h
      exact (read_currents_pure_none_iff p).mp (Option.some.inj h)
    · intro h
      rw [(read_currents_pure_none_iff p).mpr h]
  · intro st' i hlen hget
    unfold read_all_currents
    rw [hlen]
    by_cases hi : i < st.ports.length
    · rw [List.get?_map, List.get?_map, List.get?_range hi]
      have hpc2 : ∃ p, st.ports.get? i = some p := by
        cases hpc : st.ports.get? i with
        | none => exact absurd (List.get?_eq_none.mp hpc) (by omega)
        | some p => exact ⟨p, rfl⟩
      obtain ⟨p, hpc⟩ := hpc2
      have h1 := read_currents_proj st i p hpc
      have h2 := read_currents_proj st' i p (by rw [hget, hpc])
      simp [h1, h2]
    · have h1 : (List.range st.ports.length).get? i = none :=
        List.get?_eq_none.mpr (by simpa using hi)
      rw [List.get?_map, List.get?_map, h1]
      rfl

theorem read_all_currents_slots_witness :
    ((read_all_currents ⟨[⟨true, ["1.5", "2.5", "0"], []⟩, ⟨false, [], []⟩], 0, none, 0⟩).get? 1
        = some none
      ↔ read_currents_fails ⟨false, [], []⟩ = true)
  ∧ read_currents_fails (⟨false, [], []⟩ : PortSt) = true :=
  ⟨(read_all_currents_slots ⟨[⟨true, ["1.5", "2.5", "0"], []⟩, ⟨false, [], []⟩], 0, none, 0⟩).2.1
      1 ⟨false, [], []⟩ (by decide), by decide⟩

/-! ### One-handle run lemmas for the EEPROM exchanges -/

theorem get_point_count_one (a b : String) (t ps : List String) (pi ei : Nat) (er : Option Int) :
    get_point_count ⟨[⟨true, a :: b :: t, ps⟩], pi, er, ei⟩ 0
      = (some a, ⟨[⟨true, t, ps ++ [cmdGetPointCount]⟩], pi, pyInt? b,
          if (pyInt? b).isSome then pi else ei⟩) := by
  cases h2 : pyInt? b <;>
    simp [get_point_count, port_okB, port_ok, send_command, send_value, read_value, readln,
      popLine, setPort, writelnP, List.set, h2]

theorem get_eeprom_data_page_count_one (a b : String) (t ps : List String) (pi ei : Nat)
    (er : Option Int) :
    get_eeprom_data_page_count ⟨[⟨true, a :: b :: t, ps⟩], pi, er, ei⟩ 0
      = (some a, ⟨[⟨true, t, ps ++ [cmdGetEEPROMDataPageCount]⟩], pi, pyInt? b,
          if (pyInt? b).isSome then pi else ei⟩) := by
  cases h2 : pyInt? b <;>
    simp [get_eeprom_data_page_count, port_okB, port_ok, send_command, send_value, read_value,
      readln, popLine, setPort, writelnP, List.set, h2]

theorem set_eeprom_base_address_one (di : Nat) (a b : String) (t ps : List String) (pi ei : Nat)
    (er : Option Int) :
    set_eeprom_base_address ⟨[⟨true, a :: b :: t, ps⟩], pi, er, ei⟩ di 0
      = (true, ⟨[⟨true, t, ps ++ [cmdSetEEPROMBaseAddress, toString di]⟩], pi, pyInt? b,
          if (pyInt? b).isSome then pi else ei⟩) := by
  cases h2 : pyInt? b <;>
    simp [set_eeprom_base_address, port_okB, port_ok, send_command, send_value, read_value,
      readln, popLine, setPort, writelnP, List.set, h2]

theorem get_eeprom_float_page_one (pin ps : List String) (pi ei : Nat) (er : Option Int) :
    get_eeprom_float_page ⟨[⟨true, pin, ps⟩], pi, er, ei⟩ 0
      = (parse_float_page (pin.head?.getD ""),
          ⟨[⟨true, pin.drop 2, ps ++ [cmdGetEEPROMFloatPage]⟩], pi,
            pyInt? (pin[1]?.getD ""),
            if (pyInt? (pin[1]?.getD "")).isSome then pi else ei⟩) := by
  match pin with
  | [] =>
      cases h2 : pyInt? "" <;>
        simp [get_eeprom_float_page, port_okB, port_ok, send_command, send_value, read_value,
          readln, popLine, setPort, writelnP, List.set, h2]
  | [a] =>
      cases h2 : pyInt? "" <;>
        simp [get_eeprom_float_page, port_okB, port_ok, send_command, send_value, read_value,
          readln, popLine, setPort, writelnP, List.set, h2]
  | a :: b :: t =>
      cases h2 : pyInt? b <;>
        simp [get_eeprom_float_page, port_okB, port_ok, send_command, send_value, read_value,
          readln, popLine, setPort, writelnP, List.set, h2]

/-- One page write on an open one-handle state: the command line and the
single comma-joined payload line are sent, two lines (reply and paired
error line) are consumed, the parsed error code is stored, and the call
returns `True` regardless of that code. -/
theorem set_page_run (v0 v1 v2 v3 v4 v5 v6 v7 : ℚ) (pin ps : List String) (pi ei : Nat)
    (er : Option Int) :
    set_eeprom_float_page ⟨[⟨true, pin, ps⟩], pi, er, ei⟩ [v0, v1, v2, v3, v4, v5, v6, v7] 0
      = (true, ⟨[⟨true, pin.drop 2,
          ps ++ [cmdSetEEPROMFloatPage, encodePage [v0, v1, v2, v3, v4, v5, v6, v7]]⟩], pi,
          pyInt? (pin[1]?.getD ""),
          if (pyInt? (pin[1]?.getD "")).isSome then pi else ei⟩) := by
  match pin with
  | [] =>
      cases h2 : pyInt? "" <;>
        simp [set_eeprom_float_page, port_okB, port_ok, send_command, send_value, read_value,
          readln, popLine, setPort, writelnP, List.set, h2]
  | [a] =>
      cases h2 : pyInt? "" <;>
        simp [set_eeprom_float_page, port_okB, port_ok, send_command, send_value, read_value,
          readln, popLine, setPort, writelnP, List.set, h2]
  | a :: b :: t =>
      cases h2 : pyInt? b <;>
        simp [set_eeprom_float_page, port_okB, port_ok, send_command, send_value, read_value,
          readln, popLine, setPort, writelnP, List.set, h2]

theorem page_values_for_expand (fv : List ℚ) (pn : Nat) :
    page_values_for fv pn
      = [(fv.get? (pn * 8 + 0)).getD 0, (fv.get? (pn * 8 + 1)).getD 0,
          (fv.get? (pn * 8 + 2)).getD 0, (fv.get? (pn * 8 + 3)).getD 0,
          (fv.get? (pn * 8 + 4)).getD 0, (fv.get? (pn * 8 + 5)).getD 0,
          (fv.get? (pn * 8 + 6)).getD 0, (fv.get? (pn * 8 + 7)).getD 0] := rfl

theorem write_pages_spec (fv : List ℚ) (pi0 : Nat) :
    ∀ (k pn : Nat) (pin ps : List String) (er : Option Int) (ei : Nat),
    ∃ er' ei',
      write_pages fv 0 ⟨[⟨true, pin, ps⟩], pi0, er, ei⟩ pn k
        = (k, ⟨[⟨true, pin.drop (2*k), ps ++ pageLines fv pn k⟩], pi0, er', ei'⟩)
  | 0, pn, pin, ps, er, ei => ⟨er, ei, by simp [write_pages, pageLines]⟩
  | k+1, pn, pin, ps, er, ei => by
      obtain ⟨er', ei', ih⟩ := write_pages_spec fv pi0 k (pn+1) (pin.drop 2)
        (ps ++ [cmdSetEEPROMFloatPage, encodePage (page_values_for fv pn)])
        (pyInt? (pin[1]?.getD ""))
        (if (pyInt? (pin[1]?.getD "")).isSome then pi0 else ei)
      refine ⟨er', ei', ?_⟩
      have hd : (pin.drop 2).drop (2*k) = pin.drop (2*(k+1)) := by
        rw [List.drop_drop]
        congr 1
        omega
      have ha : (ps ++ [cmdSetEEPROMFloatPage, encodePage (page_values_for fv pn)])
          ++ pageLines fv (pn+1) k = ps ++ pageLines fv pn (k+1) := by
        rw [List.append_assoc]
        rfl
      show (let r := set_eeprom_float_page ⟨[⟨true, pin, ps⟩], pi0, er, ei⟩
              (page_values_for fv pn) 0
            let w := write_pages fv 0 r.2 (pn+1) k
            (if r.1 then w.1 + 1 else w.1, w.2))
          = (k+1, ⟨[⟨true, pin.drop (2*(k+1)), ps ++ pageLines fv pn (k+1)⟩], pi0, er', ei'⟩)
      rw [page_values_for_expand, set_page_run, ← page_values_for_expand]
      simp only [ih, if_true]
      rw [hd, ha]

theorem parse_float_page_length (s : String) (pg : List ℚ)
    (h : parse_float_page s = some pg) : pg.length = 8 := by
  unfold parse_float_page at h
  cases hm : (splitCommaChars s.toList).mapM (fun v => pyFloatChars (pyStrip v)) with
  | none => rw [hm] at h; exact absurd h (by simp)
  | some fv =>
      rw [hm] at h
      have h' : (if fv.length = 8 then some fv else none) = some pg := h
      by_cases h8 : fv.length = 8
      · rw [if_pos h8] at h'
        exact Option.some.inj h' ▸ h8
      · rw [if_neg h8] at h'
        exact absurd h' (by simp)

theorem filterMap_if_lt_take (pg : List ℚ) (t : Nat) :
    ∀ n, n ≤ pg.length →
      (List.range n).filterMap (fun j => if j < t then some (pg.getD j 0) else none)
        = pg.take (min n t)
  | 0, _ => by simp
  | n+1, h => by
      rw [List.range_succ, List.filterMap_append, filterMap_if_lt_take pg t n (by omega)]
      by_cases ht : n < t
      · have h1 : (List.filterMap (fun j => if j < t then some (pg.getD j 0) else none) [n])
            = [pg.getD n 0] := by simp [ht]
        have hmin1 : min (n+1) t = (min n t) + 1 := by omega
        have hmin2 : min n t = n := by omega
        have hg : pg[n]? = some (pg.getD n 0) := by
          cases hg2 : pg[n]? with
          | none =>
              have := List.getElem?_eq_none_iff.mp hg2
              omega
          | some x => simp [hg2]
        rw [h1, hmin1, hmin2, List.take_succ, hg]
        rfl
      · have h1 : (List.filterMap (fun j => if j < t then some (pg.getD j 0) else none) [n])
            = [] := by simp [ht]
        have hmin : min (n+1) t = min n t := by omega
        rw [h1, hmin, List.append_nil]

theorem take_min_length (pg : List ℚ) (t : Nat) (h : pg.length = 8) :
    pg.take (min 8 t) = pg.take t := by
  by_cases ht : t ≤ 8
  · rw [Nat.min_eq_right ht]
  · have hm : min 8 t = 8 := Nat.min_eq_left (by omega)
    rw [hm, ← h, List.take_length, List.take_of_length_le (by omega)]

theorem take_append_split (l1 l2 : List ℚ) (m : Nat) :
    (l1 ++ l2).take m = l1.take m ++ l2.take (m - l1.length) := by
  induction l1 generalizing m with
  | nil => simp
  | cons x xs ih =>
      cases m with
      | zero => simp
      | succ m' => simp [List.take_succ_cons, ih]

theorem read_pages_spec (pi0 : Nat) (N : Nat) :
    ∀ (k pn : Nat) (pin ps : List String) (er : Option Int) (ei : Nat)
      (pgs : List (List ℚ)) (acc : List ℚ),
      pages_parse pin k = some pgs →
      ∃ er' ei',
        read_pages 0 (N : Int) ⟨[⟨true, pin, ps⟩], pi0, er, ei⟩ pn acc k
          = (some (acc ++ (pgs.join).take (N - pn * 8)),
              ⟨[⟨true, pin.drop (2*k), ps ++ List.replicate k cmdGetEEPROMFloatPage⟩],
                pi0, er', ei'⟩)
  | 0, pn, pin, ps, er, ei, pgs, acc, hp => by
      have hpgs : pgs = [] := (Option.some.inj hp).symm
      subst hpgs
      exact ⟨er, ei, by simp [read_pages]⟩
  | k+1, pn, pin, ps, er, ei, pgs, acc, hp => by
      rw [pages_parse] at hp
      cases hpg : parse_float_page (pin.head?.getD "") with
      | none => rw [hpg] at hp; exact absurd hp (by simp)
      | some pg =>
          rw [hpg] at hp
          cases hrest : pages_parse (pin.drop 2) k with
          | none => rw [hrest] at hp; exact absurd hp (by simp)
          | some rest' =>
              rw [hrest] at hp
              have hpgs : pgs = pg :: rest' := (Option.some.inj hp).symm
              subst hpgs
              have hlen8 := parse_float_page_length _ _ hpg
              obtain ⟨er', ei', ih⟩ := read_pages_spec pi0 N k (pn+1) (pin.drop 2)
                (ps ++ [cmdGetEEPROMFloatPage]) (pyInt? (pin[1]?.getD ""))
                (if (pyInt? (pin[1]?.getD "")).isSome then pi0 else ei)
                rest' (acc ++ pg.take (N - pn * 8)) hrest
              refine ⟨er', ei', ?_⟩
              have hcond : (fun j => if ((pn * 8 + j : Nat) : Int) < (N : Int) then
                    some (pg.getD j 0) else none)
                  = (fun j => if j < N - pn * 8 then some (pg.getD j 0) else none) := by
                funext j
                by_cases hc : pn * 8 + j < N
                · rw [if_pos (by exact_mod_cast hc), if_pos (by omega)]
                · rw [if_neg (by exact_mod_cast hc), if_neg (by omega)]
              show (let r := get_eeprom_float_page ⟨[⟨true, pin, ps⟩], pi0, er, ei⟩ 0
                    match r.1 with
                    | none => (none, r.2)
                    | some pg =>
                        let vals := (List.range 8).filterMap (fun j =>
                          if ((pn * 8 + j : Nat) : Int) < (N : Int) then some (pg.getD j 0)
                          else none)
                        read_pages 0 (N : Int) r.2 (pn+1) (acc ++ vals) k)
                  = (some (acc ++ ((pg :: rest').join).take (N - pn * 8)),
                      ⟨[⟨true, pin.drop (2*(k+1)),
                          ps ++ List.replicate (k+1) cmdGetEEPROMFloatPage⟩], pi0, er', ei'⟩)
              rw [get_eeprom_float_page_one]
              simp only [hpg, hcond]
              rw [filterMap_if_lt_take pg (N - pn * 8) 8 (by omega),
                take_min_length pg _ hlen8, ih]
              have hjoin : ((pg :: rest').join).take (N - pn * 8)
                  = pg.take (N - pn * 8) ++ (rest'.join).take (N - (pn+1) * 8) := by
                show (pg ++ rest'.join).take (N - pn * 8) = _
                rw [take_append_split, hlen8]
                have he : N - pn * 8 - 8 = N - (pn+1) * 8 := by omega
                rw [he]
              have hdrop : (pin.drop 2).drop (2*k) = pin.drop (2*(k+1)) := by
                rw [List.drop_drop]
                congr 1
                omega
              have hrep : (ps ++ [cmdGetEEPROMFloatPage])
                  ++ List.replicate k cmdGetEEPROMFloatPage
                  = ps ++ List.replicate (k+1) cmdGetEEPROMFloatPage := by
                rw [List.append_assoc, List.replicate_succ]
                rfl
              rw [hjoin, hdrop, hrep, List.append_assoc]

theorem pages_parse_join_length :
    ∀ (k : Nat) (pin : List String) (pgs : List (List ℚ)),
      pages_parse pin k = some pgs → pgs.join.length = 8 * k
  | 0, pin, pgs, hp => by
      have hpgs : pgs = [] := (Option.some.inj hp).symm
      subst hpgs
      simp
  | k+1, pin, pgs, hp => by
      rw [pages_parse] at hp
      cases hpg : parse_float_page (pin.head?.getD "") with
      | none => rw [hpg] at hp; exact absurd hp (by simp)
      | some pg =>
          rw [hpg] at hp
          cases hrest : pages_parse (pin.drop 2) k with
          | none => rw [hrest] at hp; exact absurd hp (by simp)
          | some rest' =>
              rw [hrest] at hp
              have hpgs : pgs = pg :: rest' := (Option.some.inj hp).symm
              subst hpgs
              have h8 := parse_float_page_length _ _ hpg
              have ih := pages_parse_join_length k (pin.drop 2) rest' hrest
              simp [h8, ih]
              omega

/-- One full run of `set_eeprom_dataset` on a fresh one-handle state whose
device reports a parseable point count and the page count `P`: the write
succeeds and the wire trace is the point-count command, the base-address
command with its index line, the page-count command, then the `P` page
writes. -/
theorem set_eeprom_dataset_run (fv : List ℚ) (di : Nat) (hdi : di ≤ 8)
    (hfv : fv.length ≠ 0) (l1 l2 l3 l4 l5 l6 : String) (rest : List String) (P : Nat) (pc : Int)
    (h1 : pyInt? l1 = some pc) (h5 : pyInt? l5 = some (P : Int)) :
    ∃ er ei,
      set_eeprom_dataset (mk1 (l1::l2::l3::l4::l5::l6::rest)) fv di 0
        = (true, ⟨[⟨true, rest.drop (2*P),
            [cmdGetPointCount, cmdSetEEPROMBaseAddress, toString di, cmdGetEEPROMDataPageCount]
              ++ pageLines fv 0 P⟩], 0, er, ei⟩) := by
  obtain ⟨er3, ei3, hw⟩ := write_pages_spec fv 0 P 0 rest
    [cmdGetPointCount, cmdSetEEPROMBaseAddress, toString di, cmdGetEEPROMDataPageCount]
    (pyInt? l6) 0
  refine ⟨er3, ei3, ?_⟩
  have hdi' : ¬ di > 8 := by omega
  simp [set_eeprom_dataset, mk1, port_okB, port_ok, hfv, hdi', get_point_count_one,
    set_eeprom_base_address_one, get_eeprom_data_page_count_one, h1, h5, ite_self,
    Int.toNat_natCast, hw]

/-- One full run of `get_eeprom_dataset` on a fresh one-handle state whose
device reports point count `N`, page count `P`, and `P` parseable pages:
the result is the first `N` samples of the concatenated pages, and the wire
trace is the three preamble exchanges followed by `P` page-read commands. -/
theorem get_eeprom_dataset_run (di : Nat) (hdi : di ≤ 8)
    (l1 l2 l3 l4 l5 l6 : String) (rest : List String) (N P : Nat) (pgs : List (List ℚ))
    (h1 : pyInt? l1 = some (N : Int)) (h5 : pyInt? l5 = some (P : Int))
    (hpar : pages_parse rest P = some pgs) (hNP : N ≤ 8 * P) :
    ∃ er ei,
      get_eeprom_dataset (mk1 (l1::l2::l3::l4::l5::l6::rest)) di 0
        = (some ((pgs.join).take N),
            ⟨[⟨true, rest.drop (2*P),
                [cmdGetPointCount, cmdSetEEPROMBaseAddress, toString di,
                  cmdGetEEPROMDataPageCount] ++ List.replicate P cmdGetEEPROMFloatPage⟩],
              0, er, ei⟩) := by
  obtain ⟨er3, ei3, hr⟩ := read_pages_spec 0 N P 0 rest
    [cmdGetPointCount, cmdSetEEPROMBaseAddress, toString di, cmdGetEEPROMDataPageCount]
    (pyInt? l6) 0 pgs [] hpar
  refine ⟨er3, ei3, ?_⟩
  have hdi' : ¬ di > 8 := by omega
  have hjl := pages_parse_join_length P rest pgs hpar
  have hlen : ((pgs.join).take N).length = N := by
    rw [List.length_take]
    omega
  simp [get_eeprom_dataset, mk1, port_okB, port_ok, hdi', get_point_count_one,
    set_eeprom_base_address_one, get_eeprom_data_page_count_one, h1, h5, ite_self,
    Int.toNat_natCast, hr, hlen]

theorem pageLines_length (fv : List ℚ) : ∀ (pn k : Nat), (pageLines fv pn k).length = 2 * k
  | _, 0 => rfl
  | pn, k+1 => by
      have ih := pageLines_length fv (pn+1) k
      simp [pageLines, ih]
      omega

theorem drop_eq_replicate_of_all_zero (l : List ℚ) (t : Nat)
    (h : ∀ j, t ≤ j → l.getD j 0 = 0) :
    l.drop t = List.replicate (l.length - t) 0 := by
  apply List.ext_getElem?
  intro j
  rw [List.getElem?_drop, List.getElem?_replicate]
  by_cases hj : j < l.length - t
  · rw [if_pos hj]
    have hlt : t + j < l.length := by omega
    have h0 := h (t + j) (by omega)
    rw [List.getD_eq_getElem?_getD] at h0
    cases hg : l[t + j]? with
    | none =>
        have := List.getElem?_eq_none_iff.mp hg
        omega
    | some x =>
        rw [hg] at h0
        simp at h0
        rw [h0]
  · rw [if_neg hj]
    exact List.getElem?_eq_none_iff.mpr (by omega)

/-! ### C4, C5, C6: the paged dataset claims -/

/-- C6 (amended): a page write on an open handle with an 8-element page
sends the page command and the comma-joined payload as one value line,
performs the paired error read (consuming the reply and the error line and
storing the parsed code), and reports `True` regardless of the
device-reported error code; `False` arises only for a wrong page size, a
closed or invalid handle, or a raised exception. -/
theorem set_eeprom_float_page_behavior (v0 v1 v2 v3 v4 v5 v6 v7 : ℚ)
    (pin ps : List String) (pi ei : Nat) (er : Option Int) :
    set_eeprom_float_page ⟨[⟨true, pin, ps⟩], pi, er, ei⟩ [v0, v1, v2, v3, v4, v5, v6, v7] 0
      = (true, ⟨[⟨true, pin.drop 2,
          ps ++ [cmdSetEEPROMFloatPage, encodePage [v0, v1, v2, v3, v4, v5, v6, v7]]⟩], pi,
          pyInt? (pin[1]?.getD ""),
          if (pyInt? (pin[1]?.getD "")).isSome then pi else ei⟩) :=
  set_page_run v0 v1 v2 v3 v4 v5 v6 v7 pin ps pi ei er

/-- C6 (counterexample): with the device reporting error code `3` for the
page, the page write still returns `True`, not its failure value. -/
theorem set_eeprom_float_page_ignores_error_cex :
    ((set_eeprom_float_page (mk1 ["OK", "3"]) [0, 0, 0, 0, 0, 0, 0, 0] 0).1 = true)
  ∧ ((set_eeprom_float_page (mk1 ["OK", "3"]) [0, 0, 0, 0, 0, 0, 0, 0] 0).2.err = some 3)
  ∧ ((3 : Int) ≠ 0) := by
  refine ⟨by decide, by decide, by decide⟩

/-- C5 (counterexample): on a concrete run of the whole-dataset write, the
exchange order is point count, then base address, then page count — not the
claimed point count, page count, base address. -/
theorem eeprom_dataset_order_cex :
    ((sentOf (set_eeprom_dataset (mk1 ["1", "0", "OK", "0", "1", "0", "r", "0"])
        [(5 : ℚ)] 0 0).2 0).take 4
      = [cmdGetPointCount, cmdSetEEPROMBaseAddress, "0", cmdGetEEPROMDataPageCount])
  ∧ ([cmdGetPointCount, cmdSetEEPROMBaseAddress, "0", cmdGetEEPROMDataPageCount]
      ≠ [cmdGetPointCount, cmdGetEEPROMDataPageCount, cmdSetEEPROMBaseAddress, "0"]) := by
  refine ⟨by decide, by decide⟩

/-- C5 (amended): each whole-dataset helper performs its exchanges in the
order: query the point count, then set the base address, then query the
page count, then iterate the page count transferring 8-wide pages. -/
theorem eeprom_dataset_exchange_order (fv : List ℚ) (di N P : Nat)
    (hdi : di ≤ 8) (hfv : fv.length ≠ 0)
    (l1 l2 l3 l4 l5 l6 : String) (rest : List String)
    (g1 g2 g3 g4 g5 g6 : String) (grest : List String) (pgs : List (List ℚ)) (pc : Int)
    (h1 : pyInt? l1 = some pc) (h5 : pyInt? l5 = some (P : Int))
    (hg1 : pyInt? g1 = some (N : Int)) (hg5 : pyInt? g5 = some (P : Int))
    (hpar : pages_parse grest P = some pgs) (hNP : N ≤ 8 * P) :
    (sentOf (set_eeprom_dataset (mk1 (l1::l2::l3::l4::l5::l6::rest)) fv di 0).2 0
      = [cmdGetPointCount, cmdSetEEPROMBaseAddress, toString di, cmdGetEEPROMDataPageCount]
        ++ pageLines fv 0 P)
  ∧ (sentOf (get_eeprom_dataset (mk1 (g1::g2::g3::g4::g5::g6::grest)) di 0).2 0
      = [cmdGetPointCount, cmdSetEEPROMBaseAddress, toString di, cmdGetEEPROMDataPageCount]
        ++ List.replicate P cmdGetEEPROMFloatPage) := by
  obtain ⟨e1, i1, hs⟩ := set_eeprom_dataset_run fv di hdi hfv l1 l2 l3 l4 l5 l6 rest P pc h1 h5
  obtain ⟨e2, i2, hg⟩ := get_eeprom_dataset_run di hdi g1 g2 g3 g4 g5 g6 grest N P pgs
    hg1 hg5 hpar hNP
  rw [hs, hg]
  constructor <;> rfl

theorem eeprom_dataset_exchange_order_witness :
    (sentOf (set_eeprom_dataset (mk1 ["1", "0", "OK", "0", "1", "0"]) [(5 : ℚ)] 0 0).2 0
      = [cmdGetPointCount, cmdSetEEPROMBaseAddress, toString 0, cmdGetEEPROMDataPageCount]
        ++ pageLines [(5 : ℚ)] 0 1)
  ∧ (sentOf (get_eeprom_dataset
        (mk1 ["1", "0", "OK", "0", "1", "0", "0,0,0,0,0,0,0,0", "0"]) 0 0).2 0
      = [cmdGetPointCount, cmdSetEEPROMBaseAddress, toString 0, cmdGetEEPROMDataPageCount]
        ++ List.replicate 1 cmdGetEEPROMFloatPage) :=
  eeprom_dataset_exchange_order [(5 : ℚ)] 0 1 1 (by decide) (by decide)
    "1" "0" "OK" "0" "1" "0" [] "1" "0" "OK" "0" "1" "0"
    ["0,0,0,0,0,0,0,0", "0"] [[0, 0, 0, 0, 0, 0, 0, 0]] 1
    (by decide) (by decide) (by decide) (by decide) (by decide) (by decide)

/-- C4: for a dataset of length `N ≥ 1`, with the device reporting point
count `N` and page count `ceil(N/8)`, the whole-dataset write performs
exactly `ceil(N/8)` page writes (the trace is the three preamble exchanges
followed by exactly that many page-command/payload pairs), the final page is
zero-padded past the end of the dataset, and the whole-dataset read
reassembles exactly the first `N` elements of the transferred pages,
discarding the padding. -/
theorem eeprom_dataset_pages_roundtrip (fv : List ℚ) (N P di : Nat)
    (hfN : fv.length = N) (hN1 : 1 ≤ N) (hP : P = (N + 7) / 8) (hdi : di ≤ 8)
    (l1 l2 l3 l4 l5 l6 : String) (rest : List String)
    (g1 g2 g3 g4 g5 g6 : String) (grest : List String) (pgs : List (List ℚ))
    (h1 : pyInt? l1 = some (N : Int)) (h5 : pyInt? l5 = some (P : Int))
    (hg1 : pyInt? g1 = some (N : Int)) (hg5 : pyInt? g5 = some (P : Int))
    (hpar : pages_parse grest P = some pgs) :
    ((set_eeprom_dataset (mk1 (l1::l2::l3::l4::l5::l6::rest)) fv di 0).1 = true)
  ∧ (sentOf (set_eeprom_dataset (mk1 (l1::l2::l3::l4::l5::l6::rest)) fv di 0).2 0
      = [cmdGetPointCount, cmdSetEEPROMBaseAddress, toString di, cmdGetEEPROMDataPageCount]
        ++ pageLines fv 0 P)
  ∧ ((pageLines fv 0 P).length = 2 * P)
  ∧ ((page_values_for fv (P - 1)).drop (N - (P - 1) * 8) = List.replicate (P * 8 - N) 0)
  ∧ ((get_eeprom_dataset (mk1 (g1::g2::g3::g4::g5::g6::grest)) di 0).1
      = some ((pgs.join).take N))
  ∧ (((pgs.join).take N).length = N) := by
  have hfv : fv.length ≠ 0 := by omega
  have hNP : N ≤ 8 * P := by omega
  obtain ⟨e1, i1, hs⟩ := set_eeprom_dataset_run fv di hdi hfv l1 l2 l3 l4 l5 l6 rest P
    (N : Int) h1 h5
  obtain ⟨e2, i2, hg⟩ := get_eeprom_dataset_run di hdi g1 g2 g3 g4 g5 g6 grest N P pgs
    hg1 hg5 hpar hNP
  have hjl := pages_parse_join_length P grest pgs hpar
  refine ⟨by rw [hs], by rw [hs]; rfl, pageLines_length fv 0 P, ?_, by rw [hg], ?_⟩
  · have hlen : (page_values_for fv (P - 1)).length = 8 := by
      unfold page_values_for
      simp
    have hzero : ∀ j, N - (P - 1) * 8 ≤ j → (page_values_for fv (P - 1)).getD j 0 = 0 := by
      intro j hj
      by_cases hj8 : j < 8
      · unfold page_values_for
        rw [List.getD_eq_getElem?_getD, List.getElem?_map, List.getElem?_range hj8]
        have hnone : fv.get? ((P - 1) * 8 + j) = none :=
          List.get?_eq_none.mpr (by omega)
        rw [List.get?_eq_getElem?] at hnone
        simp [hnone]
      · rw [List.getD_eq_getElem?_getD, List.getElem?_eq_none_iff.mpr (by omega)]
        rfl
    rw [drop_eq_replicate_of_all_zero _ _ hzero, hlen]
    congr 1
    omega
  · rw [List.length_take]
    omega

theorem eeprom_dataset_pages_roundtrip_witness :
    ((set_eeprom_dataset (mk1 ["1", "0", "OK", "0", "1", "0"]) [(5 : ℚ)] 0 0).1 = true)
  ∧ (sentOf (set_eeprom_dataset (mk1 ["1", "0", "OK", "0", "1", "0"]) [(5 : ℚ)] 0 0).2 0
      = [cmdGetPointCount, cmdSetEEPROMBaseAddress, toString 0, cmdGetEEPROMDataPageCount]
        ++ pageLines [(5 : ℚ)] 0 1)
  ∧ ((pageLines [(5 : ℚ)] 0 1).length = 2 * 1)
  ∧ ((page_values_for [(5 : ℚ)] (1 - 1)).drop (1 - (1 - 1) * 8)
      = List.replicate (1 * 8 - 1) 0)
  ∧ ((get_eeprom_dataset
        (mk1 ["1", "0", "OK", "0", "1", "0", "7,0,0,0,0,0,0,0", "0"]) 0 0).1
      = some ((([[(7 : ℚ), 0, 0, 0, 0, 0, 0, 0]] : List (List ℚ)).join).take 1))
  ∧ (((([[(7 : ℚ), 0, 0, 0, 0, 0, 0, 0]] : List (List ℚ)).join).take 1).length = 1) :=
  eeprom_dataset_pages_roundtrip [(5 : ℚ)] 1 1 0 (by decide) (by decide) (by decide)
    (by decide) "1" "0" "OK" "0" "1" "0" [] "1" "0" "OK" "0" "1" "0"
    ["7,0,0,0,0,0,0,0", "0"] [[(7 : ℚ), 0, 0, 0, 0, 0, 0, 0]]
    (by decide) (by decide) (by decide) (by decide) (by decide)

/-! ### C8: the `error_description` accessor -/

/-- C8 (failing input): for the stored error code `10` (bits 1 and 3 set),
the `error_description` accessor reinterprets the decimal rendering `"10"`
as hexadecimal, summarizing `16` (bit 4, `"Parse Error"`) instead of the
descriptions of the bits actually set in `10`. -/
theorem error_description_hex_reinterpretation_bug :
    error_description 10 = "Parse Error"
  ∧ get_error_summary 10 = "Command Not Found | Invalid Value"
  ∧ error_description 10 ≠ get_error_summary 10 := by
  refine ⟨by decide, by decide, by decide⟩

theorem mem_addChecked_self (l : List String) (x : String) : x ∈ addChecked l x := by
  unfold addChecked
  by_cases h : x ∈ l
  · simp [h]
  · simp [h]

theorem mem_addChecked_of_mem {l : List String} {y : String} (x : String) (h : y ∈ l) :
    y ∈ addChecked l x := by
  unfold addChecked
  by_cases hx : x ∈ l <;> simp [hx, h]

theorem probe_step_skip (model_name : String) (st : DiscSt) (probes : List String)
    (c : Candidate) (h : c.name ∈ st.checked ∨ c.openOk = false) :
    probe_step model_name (st, probes) c = (st, probes) := by
  unfold probe_step
  rcases h with h | h
  · rw [if_pos h]
  · by_cases hin : c.name ∈ st.checked
    · rw [if_pos hin]
    · rw [if_neg hin, h]
      rfl

theorem probe_step_fresh (model_name : String) (st : DiscSt) (probes : List String)
    (c : Candidate) (hchk : c.name ∉ st.checked) (hopen : c.openOk = true) :
    probe_step model_name (st, probes) c
      = (⟨if c.response == model_name
              && !(st.serial_ports.any (fun h => h.portstr == c.name))
            then st.serial_ports ++ [⟨c.name, true⟩] else st.serial_ports,
          addChecked st.checked c.name, st.closes⟩,
        probes ++ [c.name]) := by
  unfold probe_step
  rw [if_neg hchk, hopen]
  rfl

/-- The invariant of the discovery fold: the probe trace stays
duplicate-free, endpoints of `base` (already checked at the start) are never
probed, the registry's endpoint identifiers stay duplicate-free, and every
probed endpoint is either an old probe or one of the remaining candidates. -/
theorem probe_fold_inv (model_name : String) (base : List String) :
    ∀ (cands : List Candidate) (st : DiscSt) (probes : List String),
      probes.Nodup →
      (∀ n ∈ probes, n ∈ st.checked) →
      (∀ n ∈ base, n ∈ st.checked) →
      (∀ n ∈ base, n ∉ probes) →
      (st.serial_ports.map Handle.portstr).Nodup →
      ((cands.foldl (probe_step model_name) (st, probes)).2.Nodup
        ∧ (∀ n ∈ base, n ∉ (cands.foldl (probe_step model_name) (st, probes)).2)
        ∧ (((cands.foldl (probe_step model_name) (st, probes)).1.serial_ports.map
              Handle.portstr).Nodup))
  | [], st, probes, h1, _, _, h4, h5 => by
      simpa using ⟨h1, h4, h5⟩
  | c :: cs, st, probes, h1, h2, h3, h4, h5 => by
      rw [List.foldl_cons]
      by_cases hin : c.name ∈ st.checked
      · rw [probe_step_skip model_name st probes c (Or.inl hin)]
        exact probe_fold_inv model_name base cs st probes h1 h2 h3 h4 h5
      · cases hop : c.openOk with
        | false =>
            rw [probe_step_skip model_name st probes c (Or.inr hop)]
            exact probe_fold_inv model_name base cs st probes h1 h2 h3 h4 h5
        | true =>
            rw [probe_step_fresh model_name st probes c hin hop]
            apply probe_fold_inv model_name base cs
            · rw [List.nodup_append]
              refine ⟨h1, by simp, ?_⟩
              intro n hn hn1
              have : n ∈ st.checked := h2 n hn
              simp at hn1
              subst hn1
              exact hin this
            · intro n hn
              rw [List.mem_append] at hn
              rcases hn with hn | hn
              · exact mem_addChecked_of_mem _ (h2 n hn)
              · simp at hn
                subst hn
                exact mem_addChecked_self _ _
            · intro n hn
              exact mem_addChecked_of_mem _ (h3 n hn)
            · intro n hn hmem
              rw [List.mem_append] at hmem
              rcases hmem with hm | hm
              · exact h4 n hn hm
              · simp at hm
                subst hm
                exact hin (h3 _ hn)
            · by_cases hk : (c.response == model_name)
                && !(st.serial_ports.any (fun h => h.portstr == c.name))
              · rw [if_pos hk]
                rw [List.map_append, List.nodup_append]
                refine ⟨h5, by simp, ?_⟩
                intro n hn hn1
                simp at hn1
                subst hn1
                have hany := (Bool.and_eq_true _ _).mp hk
                have hnone : st.serial_ports.any (fun h => h.portstr == c.name) = false := by
                  cases hx : st.serial_ports.any (fun h => h.portstr == c.name)
                  · rfl
                  · rw [hx] at hany
                    simp at hany
                rw [List.any_eq_false] at hnone
                rw [List.mem_map] at hn
                obtain ⟨h0, hh0, hh1⟩ := hn
                exact hnone h0 hh0 (by simp [hh1])
              · rw [if_neg hk]
                exact h5

/-- Every probed endpoint of one pass is an old probe or a candidate. -/
theorem probe_trace_sub (model_name : String) :
    ∀ (cands : List Candidate) (acc : DiscSt × List String) (m : String),
      m ∈ (cands.foldl (probe_step model_name) acc).2 →
      m ∈ acc.2 ∨ m ∈ cands.map Candidate.name
  | [], acc, m, hm => Or.inl (by simpa using hm)
  | c :: cs, acc, m, hm => by
      rw [List.foldl_cons] at hm
      have hr := probe_trace_sub model_name cs (probe_step model_name acc c) m hm
      rcases hr with h | h
      · have hsub : (probe_step model_name acc c).2 = acc.2
            ∨ (probe_step model_name acc c).2 = acc.2 ++ [c.name] := by
          unfold probe_step
          by_cases h1 : c.name ∈ acc.1.checked
          · rw [if_pos h1]
            exact Or.inl rfl
          · rw [if_neg h1]
            cases ho : c.openOk
            · exact Or.inl rfl
            · exact Or.inr rfl
        rcases hsub with he | he
        · rw [he] at h
          exact Or.inl h
        · rw [he, List.mem_append] at h
          rcases h with h | h
          · exact Or.inl h
          · simp at h
            subst h
            right
            simp
      · right
        rw [List.map_cons]
        exact List.mem_cons_of_mem _ h

/-- C9: within one discovery pass, no endpoint is probed twice, every
endpoint already in the checked set is skipped without re-probing, and no
endpoint identifier is ever registered twice: a duplicate-free registry
stays duplicate-free. -/
theorem check_connections_no_reprobe_no_dup (model_name : String) (st : DiscSt)
    (cands : List Candidate)
    (hnd : (st.serial_ports.map Handle.portstr).Nodup) :
    ((check_connections model_name st cands).1.2.Nodup)
  ∧ (∀ n ∈ st.checked, n ∉ (check_connections model_name st cands).1.2)
  ∧ (((check_connections model_name st cands).1.1.serial_ports.map Handle.portstr).Nodup) := by
  have hbase := probe_fold_inv model_name
    (st.checked.filter (fun p => p ∈ cands.map Candidate.name)) cands
    ⟨st.serial_ports, st.checked.filter (fun p => p ∈ cands.map Candidate.name), st.closes⟩
    [] (by simp) (by simp) (fun n hn => hn) (by simp) hnd
  obtain ⟨hh1, hh2, hh3⟩ := hbase
  refine ⟨hh1, ?_, hh3⟩
  intro n hn hmem
  have hnames : ∀ m ∈ (check_connections model_name st cands).1.2,
      m ∈ cands.map Candidate.name := by
    intro m hm
    have hsub := probe_trace_sub model_name cands
      (⟨st.serial_ports, st.checked.filter (fun p => p ∈ cands.map Candidate.name), st.closes⟩,
        []) m hm
    simpa using hsub
  have hn2 : n ∈ cands.map Candidate.name := hnames n hmem
  refine hh2 n (List.mem_filter.mpr ⟨hn, ?_⟩) hmem
  simpa using hn2

theorem check_connections_no_reprobe_no_dup_witness :
    ((check_connections "M" ⟨[], ["COM1"], []⟩
        [⟨"COM1", true, "M", "0"⟩, ⟨"COM2", true, "M", "0"⟩]).1.2.Nodup)
  ∧ ("COM1" ∉ (check_connections "M" ⟨[], ["COM1"], []⟩
        [⟨"COM1", true, "M", "0"⟩, ⟨"COM2", true, "M", "0"⟩]).1.2) :=
  ⟨(check_connections_no_reprobe_no_dup "M" ⟨[], ["COM1"], []⟩
      [⟨"COM1", true, "M", "0"⟩, ⟨"COM2", true, "M", "0"⟩] (by decide)).1,
    (check_connections_no_reprobe_no_dup "M" ⟨[], ["COM1"], []⟩
      [⟨"COM1", true, "M", "0"⟩, ⟨"COM2", true, "M", "0"⟩] (by decide)).2.1 "COM1"
      (by decide)⟩

/-- C1 (counterexample): with expected model name `"RL2000"`, a candidate
whose identification reply `"RL2000 Rev A"` contains the model name as a
proper substring is not kept as a handle (the source compares with `==`),
and its channel is not closed either. -/
theorem check_connections_substring_cex :
    (List.IsInfix ("RL2000".toList) ("RL2000 Rev A".toList))
  ∧ ((check_connections "RL2000" ⟨[], [], []⟩
        [⟨"COM3", true, "RL2000 Rev A", "0"⟩]).1.1.serial_ports = [])
  ∧ ((check_connections "RL2000" ⟨[], [], []⟩
        [⟨"COM3", true, "RL2000 Rev A", "0"⟩]).1.1.closes = []) := by
  refine ⟨?_, by decide, by decide⟩
  show ∃ s t, s ++ "RL2000".toList ++ t = "RL2000 Rev A".toList
  exact ⟨[], " Rev A".toList, by decide⟩

/-- C1 (amended): for every candidate endpoint probed during discovery
(not yet checked, open and identification round trip succeeding), the open
channel is kept as a new handle exactly when the identification reply
equals the expected model name exactly and the endpoint is not already
registered; a non-qualifying channel is simply not retained — discovery
closes no channel.  `probe_step` is the loop body `check_connections` folds
over the candidate list. -/
theorem check_connections_keeps_on_exact_match (model_name : String) (st : DiscSt)
    (probes : List String) (c : Candidate)
    (hchk : c.name ∉ st.checked) (hopen : c.openOk = true) :
    ((probe_step model_name (st, probes) c).1.serial_ports
      = (if c.response = model_name
            ∧ st.serial_ports.all (fun h => !(h.portstr == c.name)) = true
          then st.serial_ports ++ [⟨c.name, true⟩] else st.serial_ports))
  ∧ ((probe_step model_name (st, probes) c).1.closes = st.closes)
  ∧ ((probe_step model_name (st, probes) c).2 = probes ++ [c.name]) := by
  rw [probe_step_fresh model_name st probes c hchk hopen]
  refine ⟨?_, rfl, rfl⟩
  have hiff : (((c.response == model_name)
        && !(st.serial_ports.any (fun h => h.portstr == c.name))) = true)
      ↔ (c.response = model_name
          ∧ st.serial_ports.all (fun h => !(h.portstr == c.name)) = true) := by
    rw [Bool.and_eq_true, beq_iff_eq]
    constructor
    · rintro ⟨hx, hy⟩
      refine ⟨hx, ?_⟩
      rw [List.all_eq_true]
      intro x hx2
      rw [Bool.not_eq_true'] at hy ⊢
      rw [List.any_eq_false] at hy
      simpa using hy x hx2
    · rintro ⟨hx, hy⟩
      refine ⟨hx, ?_⟩
      rw [List.all_eq_true] at hy
      rw [Bool.not_eq_true', List.any_eq_false]
      intro x hx2
      have := hy x hx2
      rw [Bool.not_eq_true'] at this
      simpa using this
  by_cases hk : ((c.response == model_name)
      && !(st.serial_ports.any (fun h => h.portstr == c.name))) = true
  · rw [if_pos hk, if_pos (hiff.mp hk)]
  · rw [if_neg hk, if_neg (fun hc => hk (hiff.mpr hc))]

theorem check_connections_keeps_on_exact_match_witness :
    (((probe_step "RL2000" ((⟨[], [], []⟩ : DiscSt), []) ⟨"COM3", true, "RL2000", "0"⟩).1.serial_ports
      = (if ("RL2000" : String) = "RL2000"
            ∧ ([] : List Handle).all (fun h => !(h.portstr == "COM3")) = true
          then ([] : List Handle) ++ [⟨"COM3", true⟩] else []))
  ∧ (((probe_step "RL2000" ((⟨[], [], []⟩ : DiscSt), []) ⟨"COM3", true, "RL2000", "0"⟩).1.closes = []))
  ∧ (((probe_step "RL2000" ((⟨[], [], []⟩ : DiscSt), []) ⟨"COM3", true, "RL2000", "0"⟩).2
      = [] ++ ["COM3"])))
  ∧ ((probe_step "RL2000" ((⟨[], [], []⟩ : DiscSt), []) ⟨"COM3", true, "RL2000", "0"⟩).1.serial_ports
      = [⟨"COM3", true⟩]) :=
  ⟨check_connections_keeps_on_exact_match "RL2000" ⟨[], [], []⟩ [] ⟨"COM3", true, "RL2000", "0"⟩
      (by decide) (by decide), by decide⟩

end LTPA
